import Mathlib

/-!
Verification of the reactivity-flow analyzer of `eslint-plugin-solid`
(`src/dist/index.mjs`, rule `reactivity`).

The development is a shallow embedding of the analyzer:

* Part 1 embeds the `ScopeStack` engine (`findDeepestDeclarationScope`,
  `pushSignal` / `pushUniqueSignal`, `consumeReferencesInScope`,
  `isReferenceInCurrentScope`) as pure functions.  Scope stacks are lists of
  scope-node ids with the *innermost* frame first (the JS code stores the
  outermost frame at array index 0 and scans from `length - 1` downward; the
  list-head convention used here makes the innermost-first scan a plain
  `List.find?`).
* Part 2 embeds the rule's traversal (`create`) over a flat ESTree-like node
  store for the non-JSX program fragment exercised by the analyzed programs.
  Scope/binding information (per-variable reference lists) is modelled as
  data supplied by the tree/scope provider, exactly as the rule consumes it
  from ESLint.
* Part 3 instantiates the traversal on concrete programs from the spec's
  testable properties.
-/

namespace SolidReactivity

set_option maxRecDepth 20000

/-! ## Part 1: the scope-stack engine -/

/-- A variable reference as supplied by the scope provider: the id of the
identifier node, plus the `init` / write / read flags the rule consults
(`reference.init`, `reference.isWrite()`, `reference.isRead()`). -/
structure Reference where
  identifier : Nat
  init : Bool := false
  isWrite : Bool := false
  isRead : Bool := false
deriving DecidableEq, Repr

/-- The definition backing a variable, as exposed by `variable.defs[0]`;
only the def kinds inspected by `trace` are distinguished. -/
inductive VarDef where
  | functionName (node : Nat)
  | classOrImportBinding (node : Nat)
  | variableDef (declarator : Nat)
deriving DecidableEq, Repr

/-- A scope-manager variable: a name and its reference list, with the
optional definition record used by `trace` and `runWithOwner` handling. -/
structure Variable where
  name : String
  references : List Reference
  varDef : Option VarDef := none
deriving DecidableEq, Repr

/-- An entry of `ScopeStack.signals` (or `.props`): the registered variable's
name, its still-pending references and its declaration scope node. -/
structure SignalEntry where
  varName : String
  references : List Reference
  declarationScope : Nat
deriving DecidableEq, Repr

/-- `findDeepestDeclarationScope` (index.mjs:1804-1814): `a` if the two nodes
are equal, otherwise the first of `a` / `b` met when scanning the stack from
the innermost frame outward; if the scan finds neither, the source throws
(`Except.error`). -/
def findDeepestDeclarationScope (stack : List Nat) (a b : Nat) : Except Unit Nat :=
  if a = b then Except.ok a
  else
    match stack.find? (fun n => n == a || n == b) with
    | some n => Except.ok n
    | none => Except.error ()

/-- The entry built by `pushSignal` / `pushProps` (index.mjs:1821-1827): the
variable's references with the initializing reference filtered out. -/
def signalEntryOf (v : Variable) (declarationScope : Nat) : SignalEntry :=
  { varName := v.name
    references := v.references.filter (fun r => !r.init)
    declarationScope := declarationScope }

/-- `pushSignal` on the registry list (index.mjs:1821-1827). -/
def pushSignalList (signals : List SignalEntry) (v : Variable) (declarationScope : Nat) :
    List SignalEntry :=
  signals ++ [signalEntryOf v declarationScope]

/-- `pushUniqueSignal` (index.mjs:1834-1844): register the variable fresh, or
merge an existing entry by replacing its declaration scope with
`findDeepestDeclarationScope` of the old and new scopes.  Variables are
identified by name (the analyzed programs declare distinct names). -/
def pushUniqueSignal (stack : List Nat) (signals : List SignalEntry) (v : Variable)
    (declarationScope : Nat) : Except Unit (List SignalEntry) :=
  match signals.find? (fun s => s.varName == v.name) with
  | none => Except.ok (pushSignalList signals v declarationScope)
  | some found =>
    match findDeepestDeclarationScope stack found.declarationScope declarationScope with
    | Except.ok d =>
      Except.ok (signals.map (fun s =>
        if s.varName == v.name then { s with declarationScope := d } else s))
    | Except.error e => Except.error e

/-- One step of the generator `consumeReferencesInScope` (index.mjs:1866-1883)
for a single registry entry: partition the references with the in-scope
predicate, yield the in-scope ones paired with the entry's declaration scope,
retain the rest. -/
def consumeEntry (inCurrentScope : Reference → Bool) (entry : SignalEntry) :
    List (Reference × Nat) × SignalEntry :=
  ((entry.references.filter inCurrentScope).map (fun r => (r, entry.declarationScope)),
   { entry with references := entry.references.filter (fun r => !inCurrentScope r) })

/-- `consumeReferencesInScope` over the whole registry (index.mjs:1866-1883):
the yielded pairs of every entry in order, and the updated registry. -/
def consumeReferencesInScope (inCurrentScope : Reference → Bool) :
    List SignalEntry → List (Reference × Nat) × List SignalEntry
  | [] => ([], [])
  | v :: rest =>
    let step := consumeEntry inCurrentScope v
    let restStep := consumeReferencesInScope inCurrentScope rest
    (step.1 ++ restStep.1, step.2 :: restStep.2)

/-- `consumeSignalReferencesInScope` (index.mjs:1857-1860): drain the registry
then drop entries whose reference list became empty. -/
def consumeAndDropEmpty (inCurrentScope : Reference → Bool) (signals : List SignalEntry) :
    List (Reference × Nat) × List SignalEntry :=
  let step := consumeReferencesInScope inCurrentScope signals
  (step.1, step.2.filter (fun v => !v.references.isEmpty))

/-- A whole run of scope exits: each exit drains the registry with that
exit's in-scope predicate (`isReferenceInCurrentScope` of the frame being
popped); the yields of all exits are concatenated. -/
def drainRun : List (Reference → Bool) → List SignalEntry →
    List (Reference × Nat) × List SignalEntry
  | [], signals => ([], signals)
  | p :: ps, signals =>
    let step := consumeAndDropEmpty p signals
    let rest := drainRun ps step.2
    (step.1 ++ rest.1, rest.2)

/-- All references still pending in a registry. -/
def allReferences (signals : List SignalEntry) : List Reference :=
  (signals.map SignalEntry.references).flatten

/-- One element of the chain of enclosing function-or-program ancestors of a
reference site, innermost first (`findParent(…, isProgramOrFunctionNode)`
applied repeatedly). -/
structure ScopeAncestor where
  node : Nat
  isFn : Bool
deriving DecidableEq, Repr

/-- The loop of `isReferenceInCurrentScope` (index.mjs:1888-1894): starting
from the nearest function-or-program ancestor, as long as the ancestor is a
function node contained in the sync-callback set, move to its own nearest
function-or-program ancestor. -/
def resolveScopeAncestor (syncCallbacks : List Nat) : List ScopeAncestor → Option Nat
  | [] => none
  | a :: rest =>
    if a.isFn && syncCallbacks.contains a.node then resolveScopeAncestor syncCallbacks rest
    else some a.node

/-- `isReferenceInCurrentScope` (index.mjs:1888-1894), with the reference
site's ancestor chain precomputed by the tree provider: resolve the chain
through the sync-callback set and compare with the node of the frame
currently being exited. -/
def isReferenceInCurrentScope (syncCallbacks : List Nat) (chain : List ScopeAncestor)
    (currentScopeNode : Nat) : Bool :=
  resolveScopeAncestor syncCallbacks chain == some currentScopeNode

/-- Position of a node in the stack, counted from the innermost frame; the
smaller the position, the more deeply nested the scope.  Nodes absent from
the stack get position `length` (outside). -/
def stackIndexOf : List Nat → Nat → Nat
  | [], _ => 0
  | n :: rest, x => if n = x then 0 else stackIndexOf rest x + 1

/-- `x` is an ancestor of `y`, or equal to it, as witnessed by the current
stack (innermost frame first): `x` sits at least as far toward the root. -/
def outwardOrEqualOn (stack : List Nat) (x y : Nat) : Bool :=
  stackIndexOf stack y ≤ stackIndexOf stack x

/-- The more deeply nested of two nodes of the stack (innermost first). -/
def deeperOf (stack : List Nat) (a b : Nat) : Nat :=
  if stackIndexOf stack a ≤ stackIndexOf stack b then a else b

/-! ## Part 2: the rule traversal over a flat syntax-tree store

The tree is a flat store of nodes addressed by id, each carrying its kind,
its parent id, its children in document order, and the kind-specific fields
the rule inspects.  The embedding covers the non-JSX fragment of the rule:
the analyzed programs contain no JSX, so the visitor branches registered for
JSX node kinds (and tagged templates) can never fire on them and are not
part of the store.  Node kind names follow the ESTree names used by the
source. -/

inductive NodeKind where
  | program
  | importDecl
  | varDeclaration
  | varDeclarator
  | arrayPattern
  | identifier
  | literal
  | callExpr
  | memberExpr
  | arrowFn
  | funcDecl
  | funcExpr
  | exprStmt
  | blockStatement
  | property
  | objectExpr
  | templateLiteral
  | binaryExpr
  | unaryExpr
  | arrayExpr
  | jsxExprContainer
  | assignmentExpr
  | newExpr
  | tsAsExpression
  | tsNonNullExpression
  | tsSatisfiesExpression
deriving DecidableEq, Repr

/-- A stored syntax-tree node.  Fields are only meaningful for the kinds
that use them (`callee`/`args` for calls, `declId`/`declInit` for
declarators, and so on). -/
structure NodeData where
  kind : NodeKind
  parent : Option Nat := none
  children : List Nat := []
  name : String := ""
  callee : Option Nat := none
  args : List Nat := []
  obj : Option Nat := none
  propNode : Option Nat := none
  computed : Bool := false
  declId : Option Nat := none
  declInit : Option Nat := none
  elements : List Nat := []
  params : List Nat := []
  isAsync : Bool := false
  op : String := ""
  left : Option Nat := none
  right : Option Nat := none
  importSource : String := ""
  importSpecifiers : List (String × String) := []
  idName : Option String := none
  declKind : String := ""
  propKindStr : String := ""
  valueNode : Option Nat := none
  exprNode : Option Nat := none
deriving DecidableEq, Repr

/-- A file under analysis: the node store (node 0 is the `Program` root),
the scope provider's variable table (the analyzed programs declare
distinct names, so variables are addressed by name), the
`getDeclaredVariables` table, and the rule's options. -/
structure Ctx where
  nodes : List NodeData
  variableTable : List Variable
  declaredVarOf : List (Nat × String) := []
  customReactiveFunctions : List String := []
deriving Repr

def getNode (ctx : Ctx) (i : Nat) : Option NodeData := ctx.nodes[i]?

def kindOf (ctx : Ctx) (i : Nat) : Option NodeKind := (getNode ctx i).map (·.kind)

def parentOf (ctx : Ctx) (i : Nat) : Option Nat := (getNode ctx i).bind (·.parent)

def parentKindOf (ctx : Ctx) (i : Nat) : Option NodeKind := (parentOf ctx i).bind (kindOf ctx)

def nameOf (ctx : Ctx) (i : Nat) : String := ((getNode ctx i).map (·.name)).getD ""

def isAsyncNode (ctx : Ctx) (i : Nat) : Bool := ((getNode ctx i).map (·.isAsync)).getD false

/-- `FUNCTION_TYPES` (utils, index.mjs:67). -/
def FUNCTION_TYPES : List NodeKind := [.funcExpr, .arrowFn, .funcDecl]

/-- `isFunctionNode` (utils, index.mjs:68). -/
def isFunctionNode (ctx : Ctx) (i : Nat) : Bool :=
  match kindOf ctx i with
  | some k => FUNCTION_TYPES.contains k
  | none => false

/-- `isProgramOrFunctionNode` (utils, index.mjs:69-70). -/
def isProgramOrFunctionNode (ctx : Ctx) (i : Nat) : Bool :=
  kindOf ctx i == some NodeKind.program || isFunctionNode ctx i

/-- Walk the parent chain, collecting ids, nearest first. -/
def ancestorsFrom (ctx : Ctx) : Nat → Option Nat → List Nat
  | 0, _ => []
  | _, none => []
  | fuel + 1, some i => i :: ancestorsFrom ctx fuel (parentOf ctx i)

/-- Proper ancestors of a node, nearest first. -/
def ancestors (ctx : Ctx) (i : Nat) : List Nat :=
  ancestorsFrom ctx (ctx.nodes.length + 1) (parentOf ctx i)

/-- `findParent` (utils, index.mjs:36-38): nearest proper ancestor satisfying
the predicate. -/
def findParent (ctx : Ctx) (i : Nat) (p : Nat → Bool) : Option Nat :=
  (ancestors ctx i).find? p

/-- `find` (utils, index.mjs:25-35): like `findParent` but starting at the
node itself. -/
def findFrom (ctx : Ctx) (i : Nat) (p : Nat → Bool) : Option Nat :=
  (i :: ancestors ctx i).find? p

/-- `findInScope` (utils, index.mjs:81-84). -/
def findInScope (ctx : Ctx) (i scope : Nat) (p : Nat → Bool) : Option Nat :=
  let found := findFrom ctx i (fun n => n == scope || p n)
  if found == some scope && !p i then none else found

/-- The chain of function-or-program ancestors of a node, nearest first,
tagged with whether each is a function node: the successive values taken by
`findParent(…, isProgramOrFunctionNode)` in `isReferenceInCurrentScope`. -/
def scopeAncestorChain (ctx : Ctx) (i : Nat) : List ScopeAncestor :=
  (ancestors ctx i).filterMap (fun j =>
    if isProgramOrFunctionNode ctx j then some ⟨j, isFunctionNode ctx j⟩ else none)

/-- `findVariable` from the scope provider: look a name up in the variable
table. -/
def findVariable (ctx : Ctx) (name : String) : Option Variable :=
  ctx.variableTable.find? (fun v => v.name == name)

/-- `sourceCode.scopeManager.getDeclaredVariables(node)[0]`. -/
def getDeclaredVariable (ctx : Ctx) (i : Nat) : Option Variable :=
  match ctx.declaredVarOf.lookup i with
  | some n => findVariable ctx n
  | none => none

/-- `pre` is a prefix of `s`, computed on the character lists (the byte-based
string primitives do not reduce). -/
def strStartsWith (s pre : String) : Bool := pre.data.isPrefixOf s.data

/-- Does `sub` occur somewhere in `s`? -/
def strContainsSub (s sub : String) : Bool :=
  s.data.tails.any (fun t => sub.data.isPrefixOf t)

/-- Does `s` start with `pre` followed by an uppercase letter?  Implements
the `^pre[A-Z]` regexes of the source. -/
def startsWithUpperTail (s pre : String) : Bool :=
  strStartsWith s pre &&
    (match s.data.drop pre.data.length with
     | c :: _ => c.isUpper
     | [] => false)

/-- The reactive-hook naming convention `/^(?:use|create)[A-Z]/`
(index.mjs:2412). -/
def isUseOrCreateName (s : String) : Bool :=
  startsWithUpperTail s "use" || startsWithUpperTail s "create"

/-- The exempted props-member convention `/^(?:initial|default|static)[A-Z]/`
(index.mjs:2147). -/
def isExemptPropName (s : String) : Bool :=
  startsWithUpperTail s "initial" || startsWithUpperTail s "default" ||
    startsWithUpperTail s "static"

/-- `/^[a-z]/`: does the name start with a lowercase ASCII letter? -/
def startsLowercase (s : String) : Bool :=
  match s.data with
  | c :: _ => c.isLower
  | [] => false

/-- `isDOMElementName` (utils, index.mjs:9-10): the regex is `/^[a-z]/`. -/
def isDOMElementName (s : String) : Bool := startsLowercase s

/-- `isPropsByName` (utils, index.mjs:11-12): the regex is `/[pP]rops/`. -/
def isPropsByName (s : String) : Bool :=
  strContainsSub s "props" || strContainsSub s "Props"

/-- `/^on[a-z]+$/` (index.mjs:2445). -/
def isOnLowerEventName (s : String) : Bool :=
  strStartsWith s "on" && s.data.length > 2 && (s.data.drop 2).all Char.isLower

/-- The array-iteration method names of `checkForSyncCallbacks`
(index.mjs:2177-2179). -/
def SYNC_ARRAY_METHODS : List String :=
  ["forEach", "map", "flatMap", "reduce", "reduceRight", "find", "findIndex", "filter",
    "every", "some"]

/-- The observer constructors of `checkForTrackedScopes` (index.mjs:2328-2334). -/
def OBSERVERS : List String :=
  ["IntersectionObserver", "MutationObserver", "PerformanceObserver", "ReportingObserver",
    "ResizeObserver"]

/-- The timer callees of `checkForTrackedScopes` (index.mjs:2361-2367). -/
def TIMERS : List String :=
  ["setInterval", "setTimeout", "setImmediate", "requestAnimationFrame", "requestIdleCallback"]

/-- The imports whose first argument is a `function` tracked scope
(index.mjs:2343-2358). -/
def TRACKED_FIRST_ARG_IMPORTS : List String :=
  ["createMemo", "children", "createEffect", "createRenderEffect", "createDeferred",
    "createComputed", "createSelector", "untrack", "mapArray", "indexArray", "observable"]

/-- The binary operators flagged by the signal drain (index.mjs:2087-2105). -/
def BINARY_OPS : List String :=
  ["<", "<=", ">", ">=", "<<", ">>", ">>>", "+", "-", "*", "/", "%", "**", "|", "^", "&", "in"]

/-- A diagnostic produced by the rule, by message id, with the reported node
and the interpolated binding name where the message has one (rendering of
member-expression source text is the diagnostic sink's concern and is
represented by the identifier's name). -/
inductive Diag where
  | noWrite (node : Nat) (name : String)
  | untrackedReactive (node : Nat) (name : String)
  | expectedFunctionGotExpression (node : Nat) (name : String)
  | badSignal (node : Nat) (name : String) (usage : String)
  | badUnnamedDerivedSignal (node : Nat)
  | shouldDestructure (node : Nat)
  | shouldAssign (node : Nat)
  | noAsyncTrackedScope (node : Nat)
deriving DecidableEq, Repr

/-- The `expect` tag of a tracked-scope entry. -/
inductive Expect where
  | function
  | calledFunction
  | expression
deriving DecidableEq, Repr

/-- A `trackedScopes` entry of a scope frame. -/
structure TrackedScope where
  node : Nat
  expect : Expect
deriving DecidableEq, Repr

/-- `ScopeStackItem` (index.mjs:1778-1795). -/
structure Frame where
  node : Nat
  trackedScopes : List TrackedScope := []
  unnamedDerivedSignals : List Nat := []
  hasJSX : Bool := false
deriving DecidableEq, Repr

/-- The mutable state owned by one run of the rule: the scope stack
(innermost frame first), the sync-callback set, the signal and props
registries, the import-alias table, and the diagnostics reported so far.
`fatal` models a thrown `Error` (internal invariant violation). -/
structure RuleState where
  scopes : List Frame := []
  syncCallbacks : List Nat := []
  signals : List SignalEntry := []
  props : List SignalEntry := []
  importMap : List (String × String) := []
  diags : List Diag := []
  fatal : Bool := false
deriving DecidableEq, Repr

def currentScopeNode (st : RuleState) : Option Nat := st.scopes.head?.map Frame.node

def stackNodes (st : RuleState) : List Nat := st.scopes.map Frame.node

def report (st : RuleState) (d : Diag) : RuleState := { st with diags := st.diags ++ [d] }

def setFatal (st : RuleState) : RuleState := { st with fatal := true }

def mapCurrentFrame (st : RuleState) (f : Frame → Frame) : RuleState :=
  match st.scopes with
  | [] => setFatal st
  | fr :: rest => { st with scopes := f fr :: rest }

/-- `Map.set` of the import-alias table. -/
def mapInsert (m : List (String × String)) (k v : String) : List (String × String) :=
  if (m.lookup k).isSome then m.map (fun kv => if kv.1 == k then (k, v) else kv)
  else m ++ [(k, v)]

/-- `matchImport` (utils, index.mjs:97-100): does some name in `imports` map
to the local name `str` in the import table? -/
def matchImport (st : RuleState) (imports : List String) (str : String) : Bool :=
  imports.any (fun i => st.importMap.lookup i == some str)

/-- `handleImportDeclaration` (utils, index.mjs:88-96); the module regex
`/^solid-js(?:\x2f?|\b)/` accepts exactly the sources starting with
`solid-js` (the `\x2f?` alternative matches the empty string). -/
def handleImportDeclaration (ctx : Ctx) (st : RuleState) (i : Nat) : RuleState :=
  match getNode ctx i with
  | none => st
  | some nd =>
    if strStartsWith nd.importSource "solid-js" then
      { st with importMap := nd.importSpecifiers.foldl (fun m s => mapInsert m s.1 s.2) st.importMap }
    else st

/-- `pushTrackedScope` (index.mjs:2287-2295): record the entry on the current
frame; report `noAsyncTrackedScope` when the expectation is not
`called-function` and the node is an async function. -/
def pushTrackedScope (ctx : Ctx) (st : RuleState) (i : Nat) (expect : Expect) : RuleState :=
  let st := mapCurrentFrame st (fun fr =>
    { fr with trackedScopes := fr.trackedScopes ++ [⟨i, expect⟩] })
  if expect != Expect.calledFunction && isFunctionNode ctx i && isAsyncNode ctx i then
    report st (Diag.noAsyncTrackedScope i)
  else st

/-- Is the declarator's enclosing `VariableDeclaration` a `const`? -/
def declKindIsConst (ctx : Ctx) (d : Nat) : Bool :=
  match parentOf ctx d with
  | some p => ((getNode ctx p).map (·.declKind)).getD "" == "const"
  | none => false

/-- `trace` (utils, index.mjs:39-57): resolve an identifier through its
variable's definition (function/class/import names resolve to the definition
node; a constant or never-reassigned variable resolves through its
initializer). -/
def trace (ctx : Ctx) : Nat → Nat → Nat
  | 0, i => i
  | fuel + 1, i =>
    match getNode ctx i with
    | none => i
    | some nd =>
      if nd.kind = .identifier then
        match findVariable ctx nd.name with
        | none => i
        | some v =>
          match v.varDef with
          | some (.functionName n) => n
          | some (.classOrImportBinding n) => n
          | some (.variableDef d) =>
            match getNode ctx d with
            | none => i
            | some dd =>
              if (declKindIsConst ctx d ||
                    v.references.all (fun r => r.init || (r.isRead && !r.isWrite))) &&
                  (dd.declId.bind (kindOf ctx)) == some NodeKind.identifier &&
                  dd.declInit.isSome then
                match dd.declInit with
                | some init => trace ctx fuel init
                | none => i
              else i
          | none => i
      else i

/-- `permissivelyTrackNode` (index.mjs:2296-2307): depth-first search of a
subtree; the first sub-expression tracing to a function value, or to a plain
identifier that is neither a call target nor the object of a member access,
is pushed as a `called-function` tracked scope and its branch skipped. -/
def permissivelyTrackNode (ctx : Ctx) : Nat → RuleState → Nat → RuleState
  | 0, st, _ => setFatal st
  | fuel + 1, st, i =>
    let traced := trace ctx (ctx.nodes.length + 1) i
    let hit :=
      isFunctionNode ctx traced ||
      (kindOf ctx traced == some NodeKind.identifier &&
        (match parentOf ctx traced with
         | some p =>
           kindOf ctx p != some NodeKind.memberExpr &&
             !(kindOf ctx p == some NodeKind.callExpr &&
               ((getNode ctx p).bind (·.callee)) == some traced)
         | none => false))
    if hit then pushTrackedScope ctx st i Expect.calledFunction
    else
      match getNode ctx i with
      | none => st
      | some nd => nd.children.foldl (fun s c => permissivelyTrackNode ctx fuel s c) st

/-- `matchTrackedScope` (index.mjs:1980-1990). -/
def matchTrackedScope (ctx : Ctx) (currentNode : Nat) (ts : TrackedScope) (i : Nat) : Bool :=
  match ts.expect with
  | .function | .calledFunction => i == ts.node
  | .expression => (findInScope ctx i currentNode (fun n => n == ts.node)).isSome

/-- The `parentMemberExpression` walk of `handleTrackedScopes`
(index.mjs:2000-2006): the outermost `MemberExpression` chain above an
identifier, if its direct parent is one. -/
def outermostMemberParent (ctx : Ctx) : Nat → Nat → Option Nat
  | 0, _ => none
  | fuel + 1, i =>
    match parentOf ctx i with
    | some p =>
      if kindOf ctx p == some NodeKind.memberExpr then
        match outermostMemberParent ctx fuel p with
        | some q => some q
        | none => some p
      else none
    | none => none

/-- Apply the registry's `pushUniqueSignal` to the rule state; a merge of
unrelated scopes throws in the source, modelled by `fatal`. -/
def applyPushUnique (st : RuleState) (v : Variable) (declarationScope : Nat) : RuleState :=
  match pushUniqueSignal (stackNodes st) st.signals v declarationScope with
  | Except.ok signals => { st with signals := signals }
  | Except.error _ => setFatal st

/-- `handleTrackedScopes` (index.mjs:1991-2047). -/
def handleTrackedScopes (ctx : Ctx) (st : RuleState) (identifier declarationScope : Nat) :
    RuleState :=
  match st.scopes with
  | [] => setFatal st
  | frame :: rest =>
    let currentNode := frame.node
    if frame.trackedScopes.any (fun ts => matchTrackedScope ctx currentNode ts identifier) then
      st
    else
      let matchedExpression := frame.trackedScopes.any (fun ts =>
        matchTrackedScope ctx currentNode { ts with expect := Expect.expression } identifier)
      if declarationScope = currentNode then
        let pme := outermostMemberParent ctx (ctx.nodes.length + 1) identifier
        let pce :=
          if parentKindOf ctx identifier == some NodeKind.callExpr then parentOf ctx identifier
          else none
        let reportNode := (pme <|> pce).getD identifier
        report st
          (if matchedExpression then
            Diag.expectedFunctionGotExpression reportNode (nameOf ctx identifier)
          else Diag.untrackedReactive reportNode (nameOf ctx identifier))
      else
        match rest with
        | [] => setFatal st
        | parentFrame :: restOuter =>
          if !isFunctionNode ctx currentNode then setFatal st
          else
            let pushUnnamed : RuleState :=
              { st with scopes :=
                  frame ::
                    { parentFrame with
                      unnamedDerivedSignals :=
                        parentFrame.unnamedDerivedSignals ++ [currentNode] } ::
                    restOuter }
            if kindOf ctx currentNode == some NodeKind.funcDecl then
              match getDeclaredVariable ctx currentNode with
              | some functionVariable => applyPushUnique st functionVariable declarationScope
              | none => pushUnnamed
            else if parentKindOf ctx currentNode == some NodeKind.varDeclarator then
              match parentOf ctx currentNode with
              | some declarator =>
                match getDeclaredVariable ctx declarator with
                | some functionVariable => applyPushUnique st functionVariable declarationScope
                | none => pushUnnamed
              | none => pushUnnamed
            else if parentKindOf ctx currentNode == some NodeKind.property then st
            else pushUnnamed

/-- The per-reference signal validation of `onFunctionExit`
(index.mjs:2063-2126); the final `JSXExpressionContainer` branch concerns
JSX nodes, absent from the embedded fragment. -/
def signalRefExit (ctx : Ctx) (st : RuleState) (r : Reference) (declarationScope : Nat) :
    RuleState :=
  let identifier := r.identifier
  if r.isWrite then report st (Diag.noWrite identifier (nameOf ctx identifier))
  else if kindOf ctx identifier == some NodeKind.identifier then
    match parentOf ctx identifier with
    | none => st
    | some p =>
      if kindOf ctx p == some NodeKind.callExpr ||
          (kindOf ctx p == some NodeKind.arrayExpr &&
            parentKindOf ctx p == some NodeKind.callExpr) then
        handleTrackedScopes ctx st identifier declarationScope
      else if kindOf ctx p == some NodeKind.templateLiteral then
        report st (Diag.badSignal identifier (nameOf ctx identifier) "template literals")
      else if kindOf ctx p == some NodeKind.binaryExpr &&
          BINARY_OPS.contains (((getNode ctx p).map (·.op)).getD "") then
        report st (Diag.badSignal identifier (nameOf ctx identifier) "arithmetic or comparisons")
      else if kindOf ctx p == some NodeKind.unaryExpr &&
          ["-", "+", "~"].contains (((getNode ctx p).map (·.op)).getD "") then
        report st (Diag.badSignal identifier (nameOf ctx identifier) "unary expressions")
      else if kindOf ctx p == some NodeKind.memberExpr &&
          ((getNode ctx p).map (·.computed)).getD false &&
          ((getNode ctx p).bind (·.propNode)) == some identifier then
        report st (Diag.badSignal identifier (nameOf ctx identifier) "property accesses")
      else st
  else st

/-- The per-reference props/store validation of `onFunctionExit`
(index.mjs:2127-2157). -/
def propsRefExit (ctx : Ctx) (st : RuleState) (r : Reference) (declarationScope : Nat) :
    RuleState :=
  let identifier := r.identifier
  if r.isWrite then report st (Diag.noWrite identifier (nameOf ctx identifier))
  else
    match parentOf ctx identifier with
    | none => st
    | some p =>
      if kindOf ctx p == some NodeKind.memberExpr &&
          ((getNode ctx p).bind (·.obj)) == some identifier then
        if parentKindOf ctx p == some NodeKind.assignmentExpr &&
            (((parentOf ctx p).bind (getNode ctx)).bind (·.left)) == some p then
          report st (Diag.noWrite identifier (nameOf ctx identifier))
        else if (((getNode ctx p).bind (·.propNode)).bind (kindOf ctx))
              == some NodeKind.identifier &&
            isExemptPropName ((((getNode ctx p).bind (·.propNode)).map (nameOf ctx)).getD "") then
          st
        else handleTrackedScopes ctx st identifier declarationScope
      else if kindOf ctx p == some NodeKind.assignmentExpr ||
          kindOf ctx p == some NodeKind.varDeclarator then
        report st (Diag.untrackedReactive identifier (nameOf ctx identifier))
      else st

/-- The in-scope predicate used by the drains at a scope exit:
`isReferenceInCurrentScope` with the reference's ancestor chain read off the
tree. -/
def isRefInCurrentScope (ctx : Ctx) (st : RuleState) (r : Reference) : Bool :=
  match currentScopeNode st with
  | some n => isReferenceInCurrentScope st.syncCallbacks (scopeAncestorChain ctx r.identifier) n
  | none => false

/-- The drain loop of `onFunctionExit` over one registry
(`for..of` over the `consumeReferencesInScope` generator,
index.mjs:2063/2127): visit the registry by index — entries appended by a
handler during the loop are still visited, matching the JS array iterator —
partitioning each entry's references and handling the in-scope ones, then
drop emptied entries. -/
def drainLoop (handler : Ctx → RuleState → Reference → Nat → RuleState)
    (getList : RuleState → List SignalEntry)
    (setList : RuleState → List SignalEntry → RuleState) (ctx : Ctx) :
    Nat → Nat → RuleState → RuleState
  | 0, _, st => setFatal st
  | fuel + 1, idx, st =>
    match (getList st)[idx]? with
    | none => setList st ((getList st).filter (fun v => !v.references.isEmpty))
    | some entry =>
      let inScope := entry.references.filter (fun r => isRefInCurrentScope ctx st r)
      let notInScope := entry.references.filter (fun r => !isRefInCurrentScope ctx st r)
      let st := setList st ((getList st).set idx { entry with references := notInScope })
      let st := inScope.foldl (fun s r => handler ctx s r entry.declarationScope) st
      drainLoop handler getList setList ctx fuel (idx + 1) st

/-- `consumeSignalReferencesInScope` driven by the signal loop of
`onFunctionExit` (index.mjs:2063-2126). -/
def drainSignals (ctx : Ctx) (st : RuleState) : RuleState :=
  drainLoop signalRefExit (fun s => s.signals) (fun s l => { s with signals := l }) ctx
    (st.signals.length + ctx.variableTable.length + 2) 0 st

/-- `consumePropsReferencesInScope` driven by the props loop of
`onFunctionExit` (index.mjs:2127-2157). -/
def drainProps (ctx : Ctx) (st : RuleState) : RuleState :=
  drainLoop propsRefExit (fun s => s.props) (fun s l => { s with props := l }) ctx
    (st.props.length + ctx.variableTable.length + 2) 0 st

/-- `getFunctionName` (utils, index.mjs:72-80). -/
def getFunctionName (ctx : Ctx) (i : Nat) : Option String :=
  match getNode ctx i with
  | none => none
  | some nd =>
    if (nd.kind = .funcDecl || nd.kind = .funcExpr) && nd.idName.isSome then nd.idName
    else
      match nd.parent with
      | some p =>
        if kindOf ctx p == some NodeKind.varDeclarator &&
            (((getNode ctx p).bind (·.declId)).bind (kindOf ctx)) == some NodeKind.identifier then
          ((getNode ctx p).bind (·.declId)).map (nameOf ctx)
        else none
      | none => none

/-- `markPropsOnCondition` (index.mjs:1961-1970): a single plain identifier
parameter, in a position that is not a render prop or a tagged template,
satisfying the caller's condition, is registered as a props binding with the
function itself as declaration scope. -/
def markPropsOnCondition (ctx : Ctx) (st : RuleState) (i : Nat) (cb : String → Bool) :
    RuleState :=
  match getNode ctx i with
  | none => st
  | some nd =>
    match nd.params with
    | [p0] =>
      if kindOf ctx p0 == some NodeKind.identifier &&
          parentKindOf ctx i != some NodeKind.jsxExprContainer &&
          parentKindOf ctx i != some NodeKind.templateLiteral &&
          cb (nameOf ctx p0) then
        match findVariable ctx (nameOf ctx p0) with
        | some propsParam => { st with props := pushSignalList st.props propsParam i }
        | none => st
      else st
    | _ => st

/-- `onFunctionEnter` (index.mjs:1971-1979): sync callbacks get no frame;
other functions are checked for a props-named parameter, then a frame is
pushed. -/
def onFunctionEnter (ctx : Ctx) (st : RuleState) (i : Nat) : RuleState :=
  if isFunctionNode ctx i then
    if st.syncCallbacks.contains i then st
    else
      let st := markPropsOnCondition ctx st i (fun pname => isPropsByName pname)
      { st with scopes := { node := i } :: st.scopes }
  else { st with scopes := { node := i } :: st.scopes }

/-- `onFunctionExit` (index.mjs:2048-2172): the late props check, the sync
early return, the signal and props drains, the unnamed-derived-signal check,
and the frame pop. -/
def onFunctionExit (ctx : Ctx) (st : RuleState) (i : Nat) : RuleState :=
  let st :=
    if isFunctionNode ctx i then
      markPropsOnCondition ctx st i (fun pname =>
        if !isPropsByName pname && ((st.scopes.head?.map Frame.hasJSX).getD false) then
          match getFunctionName ctx i with
          | some functionName => !startsLowercase functionName
          | none => false
        else false)
    else st
  if isFunctionNode ctx i && st.syncCallbacks.contains i then st
  else
    let st := drainSignals ctx st
    let st := drainProps ctx st
    let st :=
      match st.scopes.head? with
      | none => setFatal st
      | some frame =>
        frame.unnamedDerivedSignals.foldl (fun s n =>
          if !(frame.trackedScopes.any (fun ts => matchTrackedScope ctx frame.node ts n)) then
            report s (Diag.badUnnamedDerivedSignal n)
          else s) st
    { st with scopes := st.scopes.tail }

/-- `getNthDestructuredVar` (index.mjs:1896-1904). -/
def getNthDestructuredVar (ctx : Ctx) (idNode : Nat) (n : Nat) : Option Variable :=
  if kindOf ctx idNode == some NodeKind.arrayPattern then
    match (((getNode ctx idNode).map (·.elements)).getD [])[n]? with
    | some el =>
      if kindOf ctx el == some NodeKind.identifier then findVariable ctx (nameOf ctx el)
      else none
    | none => none
  else none

/-- `getReturnedVar` (index.mjs:1905-1910). -/
def getReturnedVar (ctx : Ctx) (idNode : Nat) : Option Variable :=
  if kindOf ctx idNode == some NodeKind.identifier then findVariable ctx (nameOf ctx idNode)
  else none

/-- `ignoreTransparentWrappers` (utils, index.mjs:58-66). -/
def ignoreTransparentWrappers (ctx : Ctx) (up : Bool) : Nat → Nat → Nat
  | 0, i => i
  | fuel + 1, i =>
    match getNode ctx i with
    | none => i
    | some nd =>
      if nd.kind = .tsAsExpression || nd.kind = .tsNonNullExpression ||
          nd.kind = .tsSatisfiesExpression then
        match (if up then nd.parent else nd.exprNode) with
        | some next => ignoreTransparentWrappers ctx up fuel next
        | none => i
      else i

/-- `checkForSyncCallbacks` (index.mjs:2173-2208). -/
def checkForSyncCallbacks (ctx : Ctx) (st : RuleState) (i : Nat) : RuleState :=
  match getNode ctx i with
  | none => st
  | some nd =>
    let st :=
      if nd.args.length == 1 &&
          ((nd.args.head?.map (fun a => isFunctionNode ctx a && !isAsyncNode ctx a)).getD
            false) then
        match nd.callee with
        | some c =>
          if kindOf ctx c == some NodeKind.identifier &&
              matchImport st ["batch", "produce"] (nameOf ctx c) then
            { st with syncCallbacks := st.syncCallbacks ++ nd.args }
          else if kindOf ctx c == some NodeKind.memberExpr &&
              !(((getNode ctx c).map (·.computed)).getD true) &&
              (((getNode ctx c).bind (·.obj)).bind (kindOf ctx)) != some NodeKind.objectExpr &&
              SYNC_ARRAY_METHODS.contains
                ((((getNode ctx c).bind (·.propNode)).map (nameOf ctx)).getD "") then
            { st with syncCallbacks := st.syncCallbacks ++ nd.args }
          else st
        | none => st
      else st
    let st :=
      match nd.callee with
      | some c =>
        if kindOf ctx c == some NodeKind.identifier then
          if matchImport st ["createSignal", "createStore"] (nameOf ctx c) &&
              parentKindOf ctx i == some NodeKind.varDeclarator then
            match ((parentOf ctx i).bind (getNode ctx)).bind (·.declId) with
            | some declPattern =>
              match getNthDestructuredVar ctx declPattern 1 with
              | some setter =>
                setter.references.foldl (fun s ref =>
                  if !ref.init && ref.isRead &&
                      parentKindOf ctx ref.identifier == some NodeKind.callExpr then
                    match (parentOf ctx ref.identifier).bind (getNode ctx) with
                    | some callNode =>
                      callNode.args.foldl (fun s2 arg =>
                        if isFunctionNode ctx arg && !isAsyncNode ctx arg then
                          { s2 with syncCallbacks := s2.syncCallbacks ++ [arg] }
                        else s2) s
                    | none => s
                  else s) st
              | none => st
            | none => st
          else if matchImport st ["mapArray", "indexArray"] (nameOf ctx c) then
            match nd.args[1]? with
            | some arg1 =>
              if isFunctionNode ctx arg1 then
                { st with syncCallbacks := st.syncCallbacks ++ [arg1] }
              else st
            | none => st
          else st
        else st
      | none => st
    match nd.callee with
    | some c =>
      if isFunctionNode ctx c then { st with syncCallbacks := st.syncCallbacks ++ [c] }
      else st
    | none => st

/-- Push a signal entry using the current frame as declaration scope
(`scopeStack.pushSignal(v, currentScope().node)`). -/
def pushSignalCurrent (st : RuleState) (v : Variable) : RuleState :=
  match currentScopeNode st with
  | some cs => { st with signals := pushSignalList st.signals v cs }
  | none => setFatal st

/-- Push a props entry using the current frame as declaration scope. -/
def pushPropsCurrent (st : RuleState) (v : Variable) : RuleState :=
  match currentScopeNode st with
  | some cs => { st with props := pushSignalList st.props v cs }
  | none => setFatal st

/-- `checkForReactiveAssignment` (index.mjs:2209-2285). -/
def checkForReactiveAssignment (ctx : Ctx) (st : RuleState) (idNode : Option Nat)
    (initNode : Nat) : RuleState :=
  let init := ignoreTransparentWrappers ctx false (ctx.nodes.length + 1) initNode
  match getNode ctx init with
  | none => st
  | some nd =>
    if nd.kind = .callExpr then
      match nd.callee with
      | none => st
      | some c =>
        if kindOf ctx c == some NodeKind.identifier then
          let calleeName := nameOf ctx c
          if matchImport st ["createSignal", "useTransition"] calleeName then
            match idNode.bind (fun idn => getNthDestructuredVar ctx idn 0) with
            | some signal => pushSignalCurrent st signal
            | none => report st (Diag.shouldDestructure (idNode.getD init))
          else if matchImport st ["createMemo", "createSelector"] calleeName then
            match idNode.bind (getReturnedVar ctx) with
            | some memo => pushSignalCurrent st memo
            | none => report st (Diag.shouldAssign (idNode.getD init))
          else if matchImport st ["createStore"] calleeName then
            match idNode.bind (fun idn => getNthDestructuredVar ctx idn 0) with
            | some store => pushPropsCurrent st store
            | none => report st (Diag.shouldDestructure (idNode.getD init))
          else if matchImport st ["mergeProps"] calleeName then
            match idNode.bind (getReturnedVar ctx) with
            | some merged => pushPropsCurrent st merged
            | none => report st (Diag.shouldAssign (idNode.getD init))
          else if matchImport st ["splitProps"] calleeName then
            match idNode with
            | some idn =>
              if kindOf ctx idn == some NodeKind.arrayPattern then
                let elementVars := (((getNode ctx idn).map (·.elements)).getD []).filterMap
                  (fun el =>
                    if kindOf ctx el == some NodeKind.identifier then
                      findVariable ctx (nameOf ctx el)
                    else none)
                if elementVars.length == 0 then report st (Diag.shouldDestructure idn)
                else elementVars.foldl (fun s v => pushPropsCurrent s v) st
              else
                match getReturnedVar ctx idn with
                | some v => pushPropsCurrent st v
                | none => st
            | none => st
          else if matchImport st ["createResource"] calleeName then
            match idNode.bind (fun idn => getNthDestructuredVar ctx idn 0) with
            | some resourceReturn => pushPropsCurrent st resourceReturn
            | none => st
          else if matchImport st ["createMutable"] calleeName then
            match idNode.bind (getReturnedVar ctx) with
            | some mutable => pushPropsCurrent st mutable
            | none => st
          else if matchImport st ["mapArray"] calleeName then
            match nd.args[1]? with
            | some arg1 =>
              if isFunctionNode ctx arg1 &&
                  (((getNode ctx arg1).map (·.params.length)).getD 0) ≥ 2 then
                match (((getNode ctx arg1).map (·.params)).getD [])[1]? with
                | some p1 =>
                  if kindOf ctx p1 == some NodeKind.identifier then
                    match findVariable ctx (nameOf ctx p1) with
                    | some indexSignal => pushSignalCurrent st indexSignal
                    | none => st
                  else st
                | none => st
              else st
            | none => st
          else if matchImport st ["indexArray"] calleeName then
            match nd.args[1]? with
            | some arg1 =>
              if isFunctionNode ctx arg1 &&
                  (((getNode ctx arg1).map (·.params.length)).getD 0) ≥ 1 then
                match (((getNode ctx arg1).map (·.params)).getD [])[0]? with
                | some p0 =>
                  if kindOf ctx p0 == some NodeKind.identifier then
                    match findVariable ctx (nameOf ctx p0) with
                    | some valueSignal => pushSignalCurrent st valueSignal
                    | none => st
                  else st
                | none => st
              else st
            | none => st
          else st
        else st
    else st

/-- The `runWithOwner` owner inspection (index.mjs:2390-2407): when the owner
argument resolves to a `getOwner()` capture, the second argument is a tracked
scope only if the capturing function was itself a `function` tracked scope of
the frame below it; the program-root stack position (`scopeStackIndex === 0`)
is never tracked.  (`scopeStack.findIndex` runs over the JS array, outermost
frame first.) -/
def runWithOwnerTracked (ctx : Ctx) (st : RuleState) (owner : Variable) : Bool :=
  match owner.varDef with
  | some (.variableDef d) =>
    if kindOf ctx d == some NodeKind.varDeclarator then
      match (getNode ctx d).bind (·.declInit) with
      | some init =>
        if kindOf ctx init == some NodeKind.callExpr &&
            (((getNode ctx init).bind (·.callee)).bind (kindOf ctx))
              == some NodeKind.identifier &&
            matchImport st ["getOwner"]
              ((((getNode ctx init).bind (·.callee)).map (nameOf ctx)).getD "") then
          match findParent ctx d (fun n => isProgramOrFunctionNode ctx n) with
          | some ownerFunction =>
            let outermostFirst := st.scopes.reverse
            match outermostFirst.findIdx? (fun fr => fr.node == ownerFunction) with
            | some idx =>
              if idx == 0 then false
              else
                match outermostFirst[idx - 1]? with
                | some below =>
                  below.trackedScopes.any (fun ts =>
                    ts.expect == Expect.function && ts.node == ownerFunction)
                | none => true
            | none => true
          | none => true
        else true
      | none => true
    else true
  | _ => true

/-- `checkForTrackedScopes` (index.mjs:2286-2462), for the non-JSX fragment
(the `JSXExpressionContainer`, `JSXSpreadAttribute` and
`TaggedTemplateExpression` branches concern node kinds absent from the
embedded programs). -/
def checkForTrackedScopes (ctx : Ctx) (st : RuleState) (i : Nat) : RuleState :=
  match getNode ctx i with
  | none => st
  | some nd =>
    match nd.kind with
    | .newExpr =>
      match nd.callee, nd.args.head? with
      | some c, some arg0 =>
        if kindOf ctx c == some NodeKind.identifier && OBSERVERS.contains (nameOf ctx c) then
          pushTrackedScope ctx st arg0 Expect.calledFunction
        else st
      | _, _ => st
    | .callExpr =>
      match nd.callee with
      | none => st
      | some c =>
        if kindOf ctx c == some NodeKind.identifier then
          let calleeName := nameOf ctx c
          if matchImport st TRACKED_FIRST_ARG_IMPORTS calleeName ||
              (matchImport st ["createResource"] calleeName && nd.args.length ≥ 2) then
            match nd.args.head? with
            | some arg0 => pushTrackedScope ctx st arg0 Expect.function
            | none => st
          else if matchImport st ["onMount", "onCleanup", "onError"] calleeName ||
              TIMERS.contains calleeName then
            match nd.args.head? with
            | some arg0 => pushTrackedScope ctx st arg0 Expect.calledFunction
            | none => st
          else if matchImport st ["on"] calleeName then
            let st :=
              match nd.args.head? with
              | some arg0 =>
                if kindOf ctx arg0 == some NodeKind.arrayExpr then
                  (((getNode ctx arg0).map (·.elements)).getD []).foldl
                    (fun s el => pushTrackedScope ctx s el Expect.function) st
                else pushTrackedScope ctx st arg0 Expect.function
              | none => st
            match nd.args[1]? with
            | some arg1 => pushTrackedScope ctx st arg1 Expect.calledFunction
            | none => st
          else if matchImport st ["createStore"] calleeName &&
              (nd.args.head?.bind (kindOf ctx)) == some NodeKind.objectExpr then
            match nd.args.head? with
            | some arg0 =>
              (((getNode ctx arg0).map (·.children)).getD []).foldl (fun s propN =>
                if kindOf ctx propN == some NodeKind.property &&
                    ((getNode ctx propN).map (·.propKindStr)).getD "" == "get" &&
                    ((((getNode ctx propN).bind (·.valueNode)).map
                      (isFunctionNode ctx)).getD false) then
                  match (getNode ctx propN).bind (·.valueNode) with
                  | some v => pushTrackedScope ctx s v Expect.function
                  | none => s
                else s) st
            | none => st
          else if matchImport st ["runWithOwner"] calleeName then
            match nd.args[1]? with
            | some arg1 =>
              let isTrackedScope :=
                match nd.args.head? with
                | some arg0 =>
                  if kindOf ctx arg0 == some NodeKind.identifier then
                    match findVariable ctx (nameOf ctx arg0) with
                    | some owner => runWithOwnerTracked ctx st owner
                    | none => true
                  else true
                | none => true
              if isTrackedScope then pushTrackedScope ctx st arg1 Expect.function else st
            | none => st
          else if isUseOrCreateName calleeName ||
              ctx.customReactiveFunctions.contains calleeName then
            nd.args.foldl (fun s a => permissivelyTrackNode ctx (ctx.nodes.length + 1) s a) st
          else st
        else if kindOf ctx c == some NodeKind.memberExpr then
          let propIsIdent := (((getNode ctx c).bind (·.propNode)).bind (kindOf ctx))
            == some NodeKind.identifier
          let propName := (((getNode ctx c).bind (·.propNode)).map (nameOf ctx)).getD ""
          if propIsIdent && propName == "addEventListener" && nd.args.length ≥ 2 then
            match nd.args[1]? with
            | some a1 => pushTrackedScope ctx st a1 Expect.calledFunction
            | none => st
          else if propIsIdent && (isUseOrCreateName propName ||
              ctx.customReactiveFunctions.contains propName) then
            nd.args.foldl (fun s a => permissivelyTrackNode ctx (ctx.nodes.length + 1) s a) st
          else st
        else st
    | .varDeclarator =>
      match nd.declInit with
      | some init =>
        if kindOf ctx init == some NodeKind.callExpr &&
            (((getNode ctx init).bind (·.callee)).bind (kindOf ctx))
              == some NodeKind.identifier &&
            matchImport st ["createReactive", "createReaction"]
              ((((getNode ctx init).bind (·.callee)).map (nameOf ctx)).getD "") then
          let st :=
            match nd.declId with
            | some idn =>
              match getReturnedVar ctx idn with
              | some track =>
                track.references.foldl (fun s ref =>
                  if !ref.init && (ref.isRead && !ref.isWrite) &&
                      parentKindOf ctx ref.identifier == some NodeKind.callExpr &&
                      (((parentOf ctx ref.identifier).bind (getNode ctx)).bind (·.callee))
                        == some ref.identifier then
                    match ((parentOf ctx ref.identifier).bind (getNode ctx)).bind
                        (fun cn => cn.args.head?) with
                    | some arg0 => pushTrackedScope ctx s arg0 Expect.function
                    | none => s
                  else s) st
              | none => st
            | none => st
          match ((getNode ctx init).map (·.args)).getD [] |>.head? with
          | some a0 =>
            if isFunctionNode ctx a0 then pushTrackedScope ctx st a0 Expect.calledFunction
            else st
          | none => st
        else st
      | none => st
    | .assignmentExpr =>
      match nd.left, nd.right with
      | some l, some r =>
        if kindOf ctx l == some NodeKind.memberExpr &&
            (((getNode ctx l).bind (·.propNode)).bind (kindOf ctx))
              == some NodeKind.identifier &&
            isFunctionNode ctx r &&
            isOnLowerEventName ((((getNode ctx l).bind (·.propNode)).map (nameOf ctx)).getD "") then
          pushTrackedScope ctx st r Expect.calledFunction
        else st
      | _, _ => st
    | _ => st

/-- The visitor dispatch of `reactivity.create` (index.mjs:2463-2536) on node
enter, for the non-JSX fragment. -/
def enterNode (ctx : Ctx) (st : RuleState) (i : Nat) : RuleState :=
  match kindOf ctx i with
  | some .program => onFunctionEnter ctx st i
  | some .arrowFn => onFunctionEnter ctx st i
  | some .funcDecl => onFunctionEnter ctx st i
  | some .funcExpr => onFunctionEnter ctx st i
  | some .importDecl => handleImportDeclaration ctx st i
  | some .callExpr =>
    let st := checkForTrackedScopes ctx st i
    let st := checkForSyncCallbacks ctx st i
    match parentOf ctx i with
    | some p =>
      let parent := ignoreTransparentWrappers ctx true (ctx.nodes.length + 1) p
      if kindOf ctx parent != some NodeKind.assignmentExpr &&
          kindOf ctx parent != some NodeKind.varDeclarator then
        checkForReactiveAssignment ctx st none i
      else st
    | none => checkForReactiveAssignment ctx st none i
  | some .newExpr => checkForTrackedScopes ctx st i
  | some .varDeclarator =>
    match (getNode ctx i).bind (·.declInit) with
    | some init =>
      let st := checkForReactiveAssignment ctx st ((getNode ctx i).bind (·.declId)) init
      checkForTrackedScopes ctx st i
    | none => st
  | some .assignmentExpr =>
    let st :=
      match (getNode ctx i).bind (·.left) with
      | some l =>
        if kindOf ctx l != some NodeKind.memberExpr then
          match (getNode ctx i).bind (·.right) with
          | some r => checkForReactiveAssignment ctx st (some l) r
          | none => st
        else st
      | none => st
    checkForTrackedScopes ctx st i
  | _ => st

/-- Node-exit dispatch (`:exit` handlers): function and program exits. -/
def exitNode (ctx : Ctx) (st : RuleState) (i : Nat) : RuleState :=
  match kindOf ctx i with
  | some .program => onFunctionExit ctx st i
  | some .arrowFn => onFunctionExit ctx st i
  | some .funcDecl => onFunctionExit ctx st i
  | some .funcExpr => onFunctionExit ctx st i
  | _ => st

/-- One depth-first traversal of the tree: enter handlers, children in
document order, exit handlers. -/
def visit (ctx : Ctx) : Nat → Nat → RuleState → RuleState
  | 0, _, st => setFatal st
  | fuel + 1, i, st =>
    let st := enterNode ctx st i
    let st := (((getNode ctx i).map (·.children)).getD []).foldl
      (fun s c => visit ctx fuel c s) st
    exitNode ctx st i

/-- `reactivity.create` (index.mjs:1950-1960): every run allocates a fresh
`ScopeStack`, import table and diagnostic list; the state left by any
previous run is not consulted. -/
def reactivityCreate (_previousRunState : RuleState) : RuleState := {}

/-- One full run of the rule over a tree: fresh state, then the traversal
from the program root (node 0). -/
def runReactivity (previousRunState : RuleState) (ctx : Ctx) : RuleState :=
  visit ctx (ctx.nodes.length + 1) 0 (reactivityCreate previousRunState)

/-- The diagnostics of one run of the `reactivity` rule on a tree. -/
def analyzeReactivity (ctx : Ctx) : List Diag := (runReactivity {} ctx).diags

/-! ## Part 3: concrete programs

The spec's example programs, with the `solid-js` import that makes
`createSignal` / `createEffect` resolve through the rule's import-alias
table (the rule's `matchImport` recognizes primitives only when they are
imported).  Node ids are positions in the store; variable reference lists
are the scope provider's output for the program (pattern identifiers of a
destructuring declaration carry an initializing write reference). -/

/-- `import { createSignal } from "solid-js";
const [count, setCount] = createSignal(0);
console.log(count());` -/
def ctxC4 : Ctx :=
  { nodes :=
      [ { kind := .program, children := [1, 2, 10] },
        { kind := .importDecl, parent := some 0, importSource := "solid-js",
          importSpecifiers := [("createSignal", "createSignal")] },
        { kind := .varDeclaration, parent := some 0, children := [3], declKind := "const" },
        { kind := .varDeclarator, parent := some 2, children := [4, 7], declId := some 4,
          declInit := some 7 },
        { kind := .arrayPattern, parent := some 3, children := [5, 6], elements := [5, 6] },
        { kind := .identifier, parent := some 4, name := "count" },
        { kind := .identifier, parent := some 4, name := "setCount" },
        { kind := .callExpr, parent := some 3, children := [8, 9], callee := some 8,
          args := [9] },
        { kind := .identifier, parent := some 7, name := "createSignal" },
        { kind := .literal, parent := some 7 },
        { kind := .exprStmt, parent := some 0, children := [11] },
        { kind := .callExpr, parent := some 10, children := [12, 15], callee := some 12,
          args := [15] },
        { kind := .memberExpr, parent := some 11, children := [13, 14], obj := some 13,
          propNode := some 14 },
        { kind := .identifier, parent := some 12, name := "console" },
        { kind := .identifier, parent := some 12, name := "log" },
        { kind := .callExpr, parent := some 11, children := [16], callee := some 16,
          args := [] },
        { kind := .identifier, parent := some 15, name := "count" } ],
    variableTable :=
      [ { name := "count",
          references :=
            [ { identifier := 5, init := true, isWrite := true },
              { identifier := 16, isRead := true } ],
          varDef := some (.variableDef 3) },
        { name := "setCount",
          references := [ { identifier := 6, init := true, isWrite := true } ],
          varDef := some (.variableDef 3) },
        { name := "createSignal",
          references := [ { identifier := 8, isRead := true } ],
          varDef := some (.classOrImportBinding 1) } ],
    declaredVarOf := [(3, "count")] }

/-- `import { createSignal, createEffect } from "solid-js";
const [count, setCount] = createSignal(0);
createEffect(() => console.log(count()));` -/
def ctxC5a : Ctx :=
  { nodes :=
      [ { kind := .program, children := [1, 2, 10] },
        { kind := .importDecl, parent := some 0, importSource := "solid-js",
          importSpecifiers :=
            [("createSignal", "createSignal"), ("createEffect", "createEffect")] },
        { kind := .varDeclaration, parent := some 0, children := [3], declKind := "const" },
        { kind := .varDeclarator, parent := some 2, children := [4, 7], declId := some 4,
          declInit := some 7 },
        { kind := .arrayPattern, parent := some 3, children := [5, 6], elements := [5, 6] },
        { kind := .identifier, parent := some 4, name := "count" },
        { kind := .identifier, parent := some 4, name := "setCount" },
        { kind := .callExpr, parent := some 3, children := [8, 9], callee := some 8,
          args := [9] },
        { kind := .identifier, parent := some 7, name := "createSignal" },
        { kind := .literal, parent := some 7 },
        { kind := .exprStmt, parent := some 0, children := [11] },
        { kind := .callExpr, parent := some 10, children := [12, 13], callee := some 12,
          args := [13] },
        { kind := .identifier, parent := some 11, name := "createEffect" },
        { kind := .arrowFn, parent := some 11, children := [14] },
        { kind := .callExpr, parent := some 13, children := [15, 18], callee := some 15,
          args := [18] },
        { kind := .memberExpr, parent := some 14, children := [16, 17], obj := some 16,
          propNode := some 17 },
        { kind := .identifier, parent := some 15, name := "console" },
        { kind := .identifier, parent := some 15, name := "log" },
        { kind := .callExpr, parent := some 14, children := [19], callee := some 19,
          args := [] },
        { kind := .identifier, parent := some 18, name := "count" } ],
    variableTable :=
      [ { name := "count",
          references :=
            [ { identifier := 5, init := true, isWrite := true },
              { identifier := 19, isRead := true } ],
          varDef := some (.variableDef 3) },
        { name := "setCount",
          references := [ { identifier := 6, init := true, isWrite := true } ],
          varDef := some (.variableDef 3) },
        { name := "createSignal",
          references := [ { identifier := 8, isRead := true } ],
          varDef := some (.classOrImportBinding 1) },
        { name := "createEffect",
          references := [ { identifier := 12, isRead := true } ],
          varDef := some (.classOrImportBinding 1) } ],
    declaredVarOf := [(3, "count")] }

/-- `import { createSignal, createEffect } from "solid-js";
const [count, setCount] = createSignal(0);
createEffect(() => count);` -/
def ctxC5b : Ctx :=
  { nodes :=
      [ { kind := .program, children := [1, 2, 10] },
        { kind := .importDecl, parent := some 0, importSource := "solid-js",
          importSpecifiers :=
            [("createSignal", "createSignal"), ("createEffect", "createEffect")] },
        { kind := .varDeclaration, parent := some 0, children := [3], declKind := "const" },
        { kind := .varDeclarator, parent := some 2, children := [4, 7], declId := some 4,
          declInit := some 7 },
        { kind := .arrayPattern, parent := some 3, children := [5, 6], elements := [5, 6] },
        { kind := .identifier, parent := some 4, name := "count" },
        { kind := .identifier, parent := some 4, name := "setCount" },
        { kind := .callExpr, parent := some 3, children := [8, 9], callee := some 8,
          args := [9] },
        { kind := .identifier, parent := some 7, name := "createSignal" },
        { kind := .literal, parent := some 7 },
        { kind := .exprStmt, parent := some 0, children := [11] },
        { kind := .callExpr, parent := some 10, children := [12, 13], callee := some 12,
          args := [13] },
        { kind := .identifier, parent := some 11, name := "createEffect" },
        { kind := .arrowFn, parent := some 11, children := [14] },
        { kind := .identifier, parent := some 13, name := "count" } ],
    variableTable :=
      [ { name := "count",
          references :=
            [ { identifier := 5, init := true, isWrite := true },
              { identifier := 14, isRead := true } ],
          varDef := some (.variableDef 3) },
        { name := "setCount",
          references := [ { identifier := 6, init := true, isWrite := true } ],
          varDef := some (.variableDef 3) },
        { name := "createSignal",
          references := [ { identifier := 8, isRead := true } ],
          varDef := some (.classOrImportBinding 1) },
        { name := "createEffect",
          references := [ { identifier := 12, isRead := true } ],
          varDef := some (.classOrImportBinding 1) } ],
    declaredVarOf := [(3, "count")] }

/-- A program-rooted async arrow function, used to exercise
`pushTrackedScope` on an async tracked-scope node. -/
def ctxAsyncArrow : Ctx :=
  { nodes :=
      [ { kind := .program, children := [1] },
        { kind := .arrowFn, parent := some 0, isAsync := true } ],
    variableTable := [] }

/-- A state with only the program frame on the stack. -/
def stProgramFrame : RuleState := { scopes := [{ node := 0 }] }

/-- Two member accesses on a props binding: `props.initialValue` (node 1,
object 2, property 3) and `props.value` (node 4, object 5, property 6). -/
def ctxPropsMember : Ctx :=
  { nodes :=
      [ { kind := .program, children := [1, 4] },
        { kind := .memberExpr, parent := some 0, children := [2, 3], obj := some 2,
          propNode := some 3 },
        { kind := .identifier, parent := some 1, name := "props" },
        { kind := .identifier, parent := some 1, name := "initialValue" },
        { kind := .memberExpr, parent := some 0, children := [5, 6], obj := some 5,
          propNode := some 6 },
        { kind := .identifier, parent := some 4, name := "props" },
        { kind := .identifier, parent := some 4, name := "value" } ],
    variableTable := [] }

/-- A function expression whose direct parent is an object-literal
`Property` (node 2 inside property node 1), plus an identifier (node 3)
standing for a drained signal read inside that function. -/
def ctxObjectPropertyFn : Ctx :=
  { nodes :=
      [ { kind := .program, children := [1] },
        { kind := .property, parent := some 0, children := [2] },
        { kind := .funcExpr, parent := some 1, children := [3] },
        { kind := .identifier, parent := some 2, name := "count" } ],
    variableTable := [] }

/-! ### Lemmas about the scope-stack engine -/

lemma perm_shuffle {α : Type} (a b c d : List α) :
    ((a ++ b) ++ (c ++ d)).Perm ((a ++ c) ++ (b ++ d)) := by
  have h := (List.perm_append_comm_assoc b c d).append_left a
  rw [List.append_assoc, List.append_assoc]
  exact h

lemma consumeEntry_perm (p : Reference → Bool) (e : SignalEntry) :
    ((consumeEntry p e).1.map Prod.fst ++ (consumeEntry p e).2.references).Perm
      e.references := by
  simpa [consumeEntry, List.map_map, Function.comp_def] using
    List.filter_append_perm p e.references

lemma consumeReferencesInScope_perm (p : Reference → Bool) (signals : List SignalEntry) :
    ((consumeReferencesInScope p signals).1.map Prod.fst ++
      allReferences (consumeReferencesInScope p signals).2).Perm (allReferences signals) := by
  induction signals with
  | nil => simp [consumeReferencesInScope, allReferences]
  | cons v rest ih =>
    have h1 := consumeEntry_perm p v
    simp only [consumeReferencesInScope, allReferences, List.map_cons, List.flatten_cons,
      List.map_append] at ih ⊢
    exact (perm_shuffle _ _ _ _).trans (h1.append ih)

lemma allReferences_filter_nonempty (signals : List SignalEntry) :
    allReferences (signals.filter (fun v => !v.references.isEmpty)) = allReferences signals := by
  induction signals with
  | nil => rfl
  | cons v rest ih =>
    by_cases h : v.references.isEmpty
    · have hv : v.references = [] := by simpa using h
      simp [allReferences, List.filter_cons, h, hv] at ih ⊢
      exact ih
    · simp [allReferences, List.filter_cons, h] at ih ⊢
      exact ih

lemma find_pair_eq (stack : List Nat) (a b : Nat) (hne : a ≠ b)
    (ha : a ∈ stack) (hb : b ∈ stack) :
    stack.find? (fun n => n == a || n == b) = some (deeperOf stack a b) := by
  induction stack with
  | nil => cases ha
  | cons x rest ih =>
    by_cases hxa : x = a
    · subst hxa
      rw [List.find?_cons_of_pos _ (by simp)]
      simp [deeperOf, stackIndexOf]
    · by_cases hxb : x = b
      · subst hxb
        rw [List.find?_cons_of_pos _ (by simp)]
        simp [deeperOf, stackIndexOf, hxa]
      · have ha' : a ∈ rest := by
          rcases List.mem_cons.mp ha with h | h
          · exact absurd h.symm hxa
          · exact h
        have hb' : b ∈ rest := by
          rcases List.mem_cons.mp hb with h | h
          · exact absurd h.symm hxb
          · exact h
        rw [List.find?_cons_of_neg _ (by simp [hxa, hxb]), ih ha' hb']
        simp [deeperOf, stackIndexOf, hxa, hxb]

lemma find_pair_none (stack : List Nat) (a b : Nat) (hna : a ∉ stack) (hnb : b ∉ stack) :
    stack.find? (fun n => n == a || n == b) = none := by
  rw [List.find?_eq_none]
  intro x hx
  simp only [Bool.or_eq_true, beq_iff_eq, not_or]
  exact ⟨fun h => hna (h ▸ hx), fun h => hnb (h ▸ hx)⟩

lemma deeperOf_index_le_left (stack : List Nat) (a b : Nat) :
    stackIndexOf stack (deeperOf stack a b) ≤ stackIndexOf stack a := by
  by_cases h : stackIndexOf stack a ≤ stackIndexOf stack b
  · simp [deeperOf, h]
  · simp [deeperOf, h]
    exact le_of_not_le h

lemma findDeepest_eq_deeperOf (stack : List Nat) (a b : Nat) (ha : a ∈ stack)
    (hb : b ∈ stack) :
    findDeepestDeclarationScope stack a b = Except.ok (deeperOf stack a b) := by
  by_cases heq : a = b
  · subst heq
    simp [findDeepestDeclarationScope, deeperOf]
  · simp only [findDeepestDeclarationScope, if_neg heq, find_pair_eq stack a b heq ha hb]

lemma resolveScopeAncestor_eq_dropWhile (sync : List Nat) (chain : List ScopeAncestor) :
    resolveScopeAncestor sync chain =
      ((chain.dropWhile (fun a => a.isFn && sync.contains a.node)).head?).map
        ScopeAncestor.node := by
  induction chain with
  | nil => rfl
  | cons a rest ih =>
    by_cases h : (a.isFn && sync.contains a.node) = true
    · rw [resolveScopeAncestor, List.dropWhile_cons, if_pos h, if_pos h, ih]
    · rw [resolveScopeAncestor, List.dropWhile_cons, if_neg h, if_neg h]
      rfl

/-! ## Claim theorems -/

/-- **C1** (reference conservation): across any sequence of scope exits, the
references yielded to the validator by the `consumeReferencesInScope` drains,
together with the references still held by registry entries after the last
exit, form a permutation of the registry's original reference lists — no
reference is yielded twice and none is dropped without being yielded. -/
theorem reference_conservation (ps : List (Reference → Bool)) (signals : List SignalEntry) :
    ((drainRun ps signals).1.map Prod.fst ++ allReferences (drainRun ps signals).2).Perm
      (allReferences signals) := by
  induction ps generalizing signals with
  | nil => simp [drainRun]
  | cons p ps ih =>
    have hstep : ((consumeAndDropEmpty p signals).1.map Prod.fst ++
        allReferences (consumeAndDropEmpty p signals).2).Perm (allReferences signals) := by
      simpa [consumeAndDropEmpty, allReferences_filter_nonempty] using
        consumeReferencesInScope_perm p signals
    have hrest := ih (consumeAndDropEmpty p signals).2
    simp only [drainRun, List.map_append, List.append_assoc]
    exact (hrest.append_left _).trans hstep

/-- **C7**: at a scope exit, `isReferenceInCurrentScope` returns `true`
exactly when the first entry of the reference's function-or-program ancestor
chain that is not a sync-callback function — the nearest enclosing ancestor
after repeatedly replacing each sync-callback function by its own enclosing
function-or-program ancestor — is the node of the frame being exited. -/
theorem isReferenceInCurrentScope_spec (sync : List Nat) (chain : List ScopeAncestor)
    (currentNode : Nat) :
    isReferenceInCurrentScope sync chain currentNode = true ↔
      ((chain.dropWhile (fun a => a.isFn && sync.contains a.node)).head?).map
          ScopeAncestor.node = some currentNode := by
  simp [isReferenceInCurrentScope, resolveScopeAncestor_eq_dropWhile]

/-- **C6** (amended): for two distinct nodes both on the current stack,
`findDeepestDeclarationScope` returns the more deeply nested one; for equal
arguments it returns the node without consulting the stack; for distinct
nodes of which neither is on the stack it throws a fatal error instead of
returning a value. -/
theorem findDeepestDeclarationScope_amended (stack : List Nat) (a b : Nat) :
    (a = b → findDeepestDeclarationScope stack a b = Except.ok a) ∧
    (a ≠ b → a ∈ stack → b ∈ stack →
      findDeepestDeclarationScope stack a b = Except.ok (deeperOf stack a b)) ∧
    (a ≠ b → a ∉ stack → b ∉ stack →
      findDeepestDeclarationScope stack a b = Except.error ()) := by
  refine ⟨fun h => by simp [findDeepestDeclarationScope, h],
    fun _ ha hb => findDeepest_eq_deeperOf stack a b ha hb,
    fun hne hna hnb => ?_⟩
  simp only [findDeepestDeclarationScope, if_neg hne, find_pair_none stack a b hna hnb]

/-- Witness for C6: on the stack `[3, 1, 0]` (innermost first), the distinct
on-stack nodes `1` and `3` resolve to the deeper node `3`. -/
theorem findDeepestDeclarationScope_amended_witness :
    findDeepestDeclarationScope [3, 1, 0] 1 3 = Except.ok 3 := by
  have h := (findDeepestDeclarationScope_amended [3, 1, 0] 1 3).2.1 (by decide) (by decide)
    (by decide)
  simpa [deeperOf, stackIndexOf] using h

/-- **C6** counterexample: with equal arguments that are on no stack frame at
all, `findDeepestDeclarationScope` returns the node (`Except.ok`) instead of
raising the fatal error the claim requires whenever neither node is on the
current stack. -/
theorem findDeepest_offstack_counterexample :
    findDeepestDeclarationScope [] 5 5 = Except.ok 5 ∧ (5 : Nat) ∉ ([] : List Nat) :=
  ⟨rfl, by simp⟩

/-- **C3** counterexample: on the stack `[1, 0]` (node 1 innermost), merging
an entry registered at the outer scope `0` with the inner scope `1` moves the
declaration scope to `1`, which is not an ancestor-or-equal of `0` on the
stack: the merge moved the declaration scope inward, not outward. -/
theorem pushUniqueSignal_counterexample :
    pushUniqueSignal [1, 0] [⟨"v", [], 0⟩] ⟨"v", [], none⟩ 1 = Except.ok [⟨"v", [], 1⟩] ∧
      outwardOrEqualOn [1, 0] 1 0 = false :=
  ⟨rfl, rfl⟩

/-- **C3** (amended): when `pushUniqueSignal` merges an existing entry and
both the old and new declaration scopes are on the current stack, the merged
declaration scope is the deeper of the two — its stack position is at least
as deep as the old scope's, so a merge never moves the declaration scope
toward the root. -/
theorem pushUniqueSignal_merge_inward (stack : List Nat) (signals : List SignalEntry)
    (v : Variable) (declarationScope : Nat) (found : SignalEntry)
    (hfind : signals.find? (fun s => s.varName == v.name) = some found)
    (ha : found.declarationScope ∈ stack) (hb : declarationScope ∈ stack) :
    pushUniqueSignal stack signals v declarationScope =
        Except.ok (signals.map (fun s =>
          if s.varName == v.name then
            { s with declarationScope := deeperOf stack found.declarationScope declarationScope }
          else s)) ∧
      stackIndexOf stack (deeperOf stack found.declarationScope declarationScope) ≤
        stackIndexOf stack found.declarationScope := by
  constructor
  · simp only [pushUniqueSignal, hfind, findDeepest_eq_deeperOf stack _ _ ha hb]
  · exact deeperOf_index_le_left stack _ _

/-- Witness for C3: stack `[2, 1, 0]`, an entry registered at scope `1`,
merged with the deeper scope `2`. -/
theorem pushUniqueSignal_merge_inward_witness :
    pushUniqueSignal [2, 1, 0] [⟨"w", [], 1⟩] ⟨"w", [], none⟩ 2 =
        Except.ok ([(⟨"w", [], 1⟩ : SignalEntry)].map (fun s =>
          if s.varName == "w" then
            { s with declarationScope := deeperOf [2, 1, 0] 1 2 }
          else s)) ∧
      stackIndexOf [2, 1, 0] (deeperOf [2, 1, 0] 1 2) ≤ stackIndexOf [2, 1, 0] 1 :=
  pushUniqueSignal_merge_inward [2, 1, 0] [⟨"w", [], 1⟩] ⟨"w", [], none⟩ 2 ⟨"w", [], 1⟩ rfl
    (by decide) (by decide)

/-- **C2** counterexample: a tracked-scope entry with expectation
`called-function` whose node is an async arrow function produces no
`noAsyncTrackedScope` diagnostic — the source reports only for the other
expectations. -/
theorem calledFunctionAsync_counterexample :
    (pushTrackedScope ctxAsyncArrow stProgramFrame 1 Expect.calledFunction).diags = [] ∧
      isFunctionNode ctxAsyncArrow 1 = true ∧ isAsyncNode ctxAsyncArrow 1 = true :=
  ⟨rfl, rfl, rfl⟩

/-- **C2** (amended): registering an async function node as a tracked scope
emits `noAsyncTrackedScope` exactly when the expectation is *not*
`called-function` (`function` or `expression`); `called-function` entries
are exempt. -/
theorem pushTrackedScope_async (ctx : Ctx) (st : RuleState) (i : Nat) (expect : Expect)
    (frame : Frame) (rest : List Frame)
    (hscopes : st.scopes = frame :: rest)
    (hfn : isFunctionNode ctx i = true)
    (hasync : isAsyncNode ctx i = true) :
    (pushTrackedScope ctx st i expect).diags =
      (if expect = Expect.calledFunction then st.diags
       else st.diags ++ [Diag.noAsyncTrackedScope i]) := by
  unfold pushTrackedScope mapCurrentFrame
  rw [hscopes]
  cases expect <;> simp [hfn, hasync, report]

/-- Witness for C2 (amended): a `function`-expectation entry on the async
arrow of `ctxAsyncArrow` reports `noAsyncTrackedScope`. -/
theorem pushTrackedScope_async_witness :
    (pushTrackedScope ctxAsyncArrow stProgramFrame 1 Expect.function).diags =
      [Diag.noAsyncTrackedScope 1] := by
  have h := pushTrackedScope_async ctxAsyncArrow stProgramFrame 1 Expect.function
    { node := 0 } [] rfl rfl rfl
  simpa [stProgramFrame] using h

/-- **C4** counterexample: analyzing
`const [count, setCount] = createSignal(0); console.log(count());`
(with its solid-js import) does not yield zero diagnostics. -/
theorem directInvokedRead_counterexample : analyzeReactivity ctxC4 ≠ [] := by
  rw [show analyzeReactivity ctxC4 = [Diag.untrackedReactive 15 "count"] from rfl]
  simp

/-- **C4** (amended): the direct, in-scope, invoked signal read yields
exactly one diagnostic, an untracked-read (`untrackedReactive`) reported on
the `count()` call (node 15): an invoked read at the declaration scope still
requires a tracked scope. -/
theorem directInvokedRead_amended :
    analyzeReactivity ctxC4 = [Diag.untrackedReactive 15 "count"] := rfl

/-- **C5** counterexample: analyzing `createEffect(() => count)` (`count` a
signal) does not yield exactly one bad-call-context diagnostic — it yields
none: the bare identifier's parent is the arrow function, which matches none
of the validator's calling-convention cases. -/
theorem trackedScopeCallingConvention_counterexample :
    ¬((analyzeReactivity ctxC5b).length = 1) := by
  rw [show analyzeReactivity ctxC5b = [] from rfl]
  simp

/-- **C5** (amended): `createEffect(() => console.log(count()))` yields no
diagnostic, and `createEffect(() => count)` also yields no diagnostic (the
uncalled signal handed back from the tracked function is accepted as passing
the signal itself). -/
theorem trackedScopeCallingConvention_amended :
    analyzeReactivity ctxC5a = [] ∧ analyzeReactivity ctxC5b = [] :=
  ⟨rfl, rfl⟩

/-- **C9**: the analysis is deterministic and stateless across runs: a run's
diagnostics are a pure function of the tree, and a second run started from
the final state left by a first run equals a run started from any other
state, because `create` allocates fresh scope-stack, registry and
sync-callback state on every run. -/
theorem analysis_deterministic_and_stateless (priorState otherPriorState : RuleState)
    (ctx : Ctx) :
    (runReactivity priorState ctx).diags = analyzeReactivity ctx ∧
      runReactivity (runReactivity priorState ctx) ctx = runReactivity otherPriorState ctx :=
  ⟨rfl, rfl⟩

/-- **C8**: a drained props/store read whose identifier is the object of a
member access and not the target of an assignment produces no diagnostic and
no state change when the accessed property name matches the exempted
convention (`initial`/`default`/`static` followed by an uppercase letter);
otherwise it is delegated to `handleTrackedScopes`, the same tracked-scope
containment check a signal read goes through. -/
theorem propsMemberExemption (ctx : Ctx) (st : RuleState) (r : Reference)
    (declarationScope p prop : Nat)
    (hw : r.isWrite = false)
    (hp : parentOf ctx r.identifier = some p)
    (hm : kindOf ctx p = some NodeKind.memberExpr)
    (hobj : ((getNode ctx p).bind (·.obj)) = some r.identifier)
    (hnotleft : (parentKindOf ctx p == some NodeKind.assignmentExpr &&
      ((((parentOf ctx p).bind (getNode ctx)).bind (·.left)) == some p)) = false)
    (hprop : ((getNode ctx p).bind (·.propNode)) = some prop)
    (hpropk : kindOf ctx prop = some NodeKind.identifier) :
    propsRefExit ctx st r declarationScope =
      if isExemptPropName (nameOf ctx prop) then st
      else handleTrackedScopes ctx st r.identifier declarationScope := by
  simp only [propsRefExit, hw, hp, hm, hobj, hprop, hpropk, hnotleft, Option.map_some,
    Option.getD_some, Option.bind_some, beq_self_eq_true, Bool.true_and, Bool.and_true,
    Bool.false_eq_true, if_false, Bool.if_false_left]
  simp [hpropk]

/-- Witness for C8: in `ctxPropsMember`, the access `props.initialValue`
(identifier 2) is exempt and leaves the state unchanged, while
`props.value` (identifier 5) is delegated to `handleTrackedScopes`. -/
theorem propsMemberExemption_witness :
    propsRefExit ctxPropsMember stProgramFrame { identifier := 2, isRead := true } 0 =
        stProgramFrame ∧
      propsRefExit ctxPropsMember stProgramFrame { identifier := 5, isRead := true } 0 =
        handleTrackedScopes ctxPropsMember stProgramFrame 5 0 := by
  constructor
  · have h := propsMemberExemption ctxPropsMember stProgramFrame
      { identifier := 2, isRead := true } 0 1 3 rfl rfl rfl rfl rfl rfl rfl
    have e : isExemptPropName (nameOf ctxPropsMember 3) = true := rfl
    simpa [e] using h
  · have h := propsMemberExemption ctxPropsMember stProgramFrame
      { identifier := 5, isRead := true } 0 4 6 rfl rfl rfl rfl rfl rfl rfl
    have e : isExemptPropName (nameOf ctxPropsMember 6) = false := rfl
    simpa [e] using h

/-- **C10**: when a signal read's declaration scope differs from the exiting
frame and the exiting frame's node is a function expression (or arrow) whose
direct parent is an object-literal `Property`, `handleTrackedScopes` leaves
the state unchanged: no diagnostic, no `pushUniqueSignal` registration, no
`unnamedDerivedSignals` addition — so the reference can produce nothing at
any later scope exit either. -/
theorem objectPropertyFunctionSkip (ctx : Ctx) (st : RuleState)
    (identifier declarationScope : Nat) (frame : Frame) (rest : List Frame)
    (hscopes : st.scopes = frame :: rest)
    (hrest : rest ≠ [])
    (hkind : kindOf ctx frame.node = some NodeKind.funcExpr ∨
      kindOf ctx frame.node = some NodeKind.arrowFn)
    (hparent : parentKindOf ctx frame.node = some NodeKind.property)
    (hdecl : declarationScope ≠ frame.node) :
    handleTrackedScopes ctx st identifier declarationScope = st := by
  obtain ⟨pf, ro, hr⟩ : ∃ pf ro, rest = pf :: ro := by
    cases rest with
    | nil => exact absurd rfl hrest
    | cons a l => exact ⟨a, l, rfl⟩
  subst hr
  have hfn : isFunctionNode ctx frame.node = true := by
    rcases hkind with h | h <;> simp [isFunctionNode, h, FUNCTION_TYPES]
  unfold handleTrackedScopes
  rw [hscopes]
  by_cases hmatch : frame.trackedScopes.any (fun ts =>
    matchTrackedScope ctx frame.node ts identifier)
  · simp [hmatch]
  · rcases hkind with h | h <;> simp [hmatch, hdecl, hfn, h, hparent]

/-- Witness for C10: in `ctxObjectPropertyFn`, draining the read at node 3
out of the function expression 2 (child of property 1) with declaration
scope 0 leaves the state untouched. -/
theorem objectPropertyFunctionSkip_witness :
    handleTrackedScopes ctxObjectPropertyFn
        { scopes := [{ node := 2 }, { node := 0 }] } 3 0 =
      { scopes := [{ node := 2 }, { node := 0 }] } :=
  objectPropertyFunctionSkip ctxObjectPropertyFn _ 3 0 { node := 2 } [{ node := 0 }]
    rfl (by simp) (Or.inl rfl) rfl (by decide)

end SolidReactivity
